import Mathlib

/-!
Shallow embedding of the `tunio` per-platform Queue core
(src/tunio/src/platform/wintun/queue.rs and src/tunio/src/platform/linux/queue.rs).

Frames and caller buffers are modelled as `List Nat` (one element per byte).
Machine pointers, wakers and OS handles are abstracted away; the channel,
buffer and error structure of the code are kept exactly.  A Rust panic is
modelled as `Option.none` (or an explicit `panicked` outcome); fallible
operations return `Except`.
-/

namespace Tunio

/-- An io error as seen at the Queue boundary: either the would-block kind
(`io::ErrorKind::WouldBlock`) or a raw OS error code. -/
inductive IoErr where
  | wouldBlock : IoErr
  | os : Nat → IoErr
deriving DecidableEq, Repr

namespace Wintun

/-- State of the bounded crossbeam frame channel (`packet_rx`), as seen from
the consumer: the frames currently buffered, in FIFO order, and whether the
sending side (the receive thread) is gone.  `try_recv` on a crossbeam channel
returns `Disconnected` only when the channel is empty and all senders have
been dropped; buffered frames are still delivered after disconnection. -/
structure ChanState where
  frames : List (List Nat)
  disconnected : Bool
deriving DecidableEq, Repr

/-- Result of `crossbeam_channel::Receiver::try_recv`. -/
inductive TryRecvRes where
  | empty : TryRecvRes
  | disconnected : TryRecvRes
  | msg : List Nat → ChanState → TryRecvRes
deriving DecidableEq, Repr

/-- Models `self.packet_rx.try_recv()` in `Read::read` (queue.rs line 160). -/
def tryRecv : ChanState → TryRecvRes
  | ⟨[], false⟩ => .empty
  | ⟨[], true⟩ => .disconnected
  | ⟨m :: rest, d⟩ => .msg m ⟨rest, d⟩

/-- Rust `<[u8]>::copy_from_slice`: replaces the whole destination with the
source and panics (`none`) when the two lengths differ. -/
def copyFromSlice (dst src : List Nat) : Option (List Nat) :=
  if src.length = dst.length then some src else none

/-- Models `Read::read` for the wintun Queue (queue.rs lines 159-172).
Returns `none` on panic; otherwise the io result, the caller buffer after
the call, and the channel state after the call.  The `warn!` log line is
side-effect free and omitted. -/
def queueRead (st : ChanState) (buf : List Nat) :
    Option (Except IoErr Nat × List Nat × ChanState) :=
  match tryRecv st with
  | .empty => some (.error .wouldBlock, buf, st)
  | .disconnected => some (.ok 0, buf, st)
  | .msg message st' =>
    let bytesToCopy := min buf.length message.length
    match copyFromSlice buf (message.take bytesToCopy) with
    | some buf' => some (.ok bytesToCopy, buf', st')
    | none => none

end Wintun

/-- Model of `tokio::io::ReadBuf`: a caller-supplied buffer with a fixed capacity and
a filled prefix.  (The initialized/unfilled distinction plays no role here.) -/
structure RBuf where
  capacity : Nat
  filled : List Nat
deriving DecidableEq, Repr

/-- Models `ReadBuf::remaining`. -/
def RBuf.remaining (b : RBuf) : Nat := b.capacity - b.filled.length

/-- Models `ReadBuf::put_slice`: appends to the filled region, panicking (`none`)
when the data does not fit in the remaining space. -/
def RBuf.putSlice (b : RBuf) (data : List Nat) : Option RBuf :=
  if data.length ≤ b.remaining then some ⟨b.capacity, b.filled ++ data⟩ else none

/-- Outcome of one `poll_read` / `poll_write` call: suspended, completed
with a result, or panicked. -/
inductive Outcome (α : Type) where
  | pending : Outcome α
  | ready : Except IoErr α → Outcome α
  | panicked : Outcome α
deriving Repr

namespace Wintun

/-- Models `AsyncRead::poll_read` for the wintun Queue (queue.rs lines 198-222).
A scratch vector of length `buf.remaining()` is zero-filled, the synchronous
`read` is attempted on it, and on `Ok(n)` the first `n` scratch bytes are
appended to the caller's `ReadBuf`.  On `WouldBlock` the waker is registered
(last component `true`) and the poll is pending; any other error completes
with that error.  A panic inside `read` propagates. -/
def pollRead (st : ChanState) (buf : RBuf) :
    Outcome Unit × RBuf × ChanState × Bool :=
  let b := List.replicate buf.remaining 0
  match queueRead st b with
  | none => (.panicked, buf, st, false)
  | some (.ok n, b', st') =>
    match buf.putSlice (b'.take n) with
    | some buf' => (.ready (.ok ()), buf', st', false)
    | none => (.panicked, buf, st', false)
  | some (.error .wouldBlock, _, st') => (.pending, buf, st', true)
  | some (.error e, _, st') => (.ready (.error e), buf, st', false)

/-- Windows `ERROR_BUFFER_OVERFLOW` (decimal 111). -/
def ERROR_BUFFER_OVERFLOW : Nat := 111

/-- Result of `WintunAllocateSendPacket`: a non-null packet pointer, or a
null pointer with the given `GetLastError` code. -/
inductive AllocResult where
  | success : AllocResult
  | fail : Nat → AllocResult
deriving DecidableEq, Repr

/-- Models `Queue::do_write` (queue.rs lines 134-155): allocate a driver send
buffer of the payload's length; on success copy the payload in, submit it,
and report the full length written; on allocation failure translate
`ERROR_BUFFER_OVERFLOW` to a would-block error and pass any other code
through untranslated. -/
def doWrite (buf : List Nat) (alloc : AllocResult) : Except IoErr Nat :=
  match alloc with
  | .success => .ok buf.length
  | .fail code =>
    if code = ERROR_BUFFER_OVERFLOW then .error .wouldBlock else .error (.os code)

/-- Writer-side state of the wintun Queue: the single-slot write-status
channel (`write_status_tx`/`write_status_rx`, `crossbeam_channel::bounded(1)`)
and the payloads of the `spawn_blocking` send tasks that have been
dispatched but have not yet stored their result. -/
structure WriteState where
  slot : Option (Except IoErr Nat)
  tasks : List (List Nat)
deriving Repr

/-- Models `AsyncWrite::poll_write` (queue.rs lines 225-250): if the single-slot
status channel holds a result, complete with it; otherwise copy the caller's
payload, dispatch a new `spawn_blocking` task that will run `do_write` on
it, and report pending. -/
def pollWrite (st : WriteState) (buf : List Nat) : Outcome Nat × WriteState :=
  match st.slot with
  | some result => (.ready result, { st with slot := none })
  | none => (.pending, { st with tasks := buf :: st.tasks })

/-- Completion of one dispatched blocking send task: it runs `do_write` on
its payload and sends the outcome into the single-slot status channel
(`send` on a full bounded(1) channel blocks, so a task completes only while
the slot is empty). -/
def taskComplete (st : WriteState) (payload : List Nat) (alloc : AllocResult) :
    Option WriteState :=
  match st.slot with
  | some _ => none
  | none =>
    if payload ∈ st.tasks then
      some { slot := some (doWrite payload alloc), tasks := st.tasks.erase payload }
    else
      none

/-- Shutdown state machine for `Drop for Queue` (queue.rs lines 185-196)
interleaved with the receive thread (`reader_thread`, lines 85-132).
`dropperPC` is the destructor's program counter: 0 before
`shutdown_event.set_event()`, 1 before `join` returns, 2 before
`WintunEndSession`, 3 afterwards.  `shutdownSignaled` is the manual-reset
event; `threadAlive` records whether the receive thread has returned. -/
structure DropState where
  dropperPC : Nat
  shutdownSignaled : Bool
  threadAlive : Bool
deriving DecidableEq, Repr

/-- State before `drop` starts: thread spawned at construction and running,
shutdown event not signaled. -/
def dropInit : DropState := ⟨0, false, true⟩

/-- Observable actions during Queue destruction. -/
inductive DropLabel where
  | setEvent : DropLabel
  | threadDriverCall : DropLabel
  | threadExit : DropLabel
  | joinReturn : DropLabel
  | endSession : DropLabel
deriving DecidableEq, Repr

/-- One step of the destructor/receive-thread system.
The destructor's three steps are in the program order of `Drop::drop`:
signal the event, then `join` — which can only return once the thread has
exited — then `WintunEndSession`.  The thread, while alive, may perform
driver calls (`WintunReceivePacket` / `WintunReleaseReceivePacket` /
`WaitForMultipleObjects`), and exits its loop once the shutdown event is
observed signaled (`WAIT_OBJECT_0` branch). -/
inductive DropStep : DropState → DropLabel → DropState → Prop where
  | set {s : DropState} : s.dropperPC = 0 →
      DropStep s .setEvent { s with dropperPC := 1, shutdownSignaled := true }
  | drv {s : DropState} : s.threadAlive = true →
      DropStep s .threadDriverCall s
  | exit {s : DropState} : s.threadAlive = true → s.shutdownSignaled = true →
      DropStep s .threadExit { s with threadAlive := false }
  | join {s : DropState} : s.dropperPC = 1 → s.threadAlive = false →
      DropStep s .joinReturn { s with dropperPC := 2 }
  | fin {s : DropState} : s.dropperPC = 2 →
      DropStep s .endSession { s with dropperPC := 3 }

/-- A finite execution: a list of labels relating a start state to an end
state through `DropStep`. -/
inductive DropTrace : DropState → List DropLabel → DropState → Prop where
  | nil {s : DropState} : DropTrace s [] s
  | cons {s s' s'' : DropState} {l : DropLabel} {ls : List DropLabel} :
      DropStep s l s' → DropTrace s' ls s'' → DropTrace s (l :: ls) s''

/-- Invariant of the shutdown machine: once `join` has returned
(`dropperPC ≥ 2`) the receive thread has exited, and the destructor only
advances past the signal step with the event signaled. -/
def DropInv (s : DropState) : Prop :=
  (1 ≤ s.dropperPC → s.shutdownSignaled = true) ∧
  (2 ≤ s.dropperPC → s.threadAlive = false)

end Wintun

namespace Linux

/-- Framing-layer selector (`crate::config::Layer`). -/
inductive Layer where
  | L2 : Layer
  | L3 : Layer
deriving DecidableEq, Repr

/-- Value of `libc::IFF_TUN`. -/
def IFF_TUN : Nat := 0x0001

/-- Value of `libc::IFF_TAP`. -/
def IFF_TAP : Nat := 0x0002

/-- Value of `libc::IFF_NO_PI` — the "no packet-info header" flag.  Never referenced
by queue.rs; defined here to state what the handshake does not request. -/
def IFF_NO_PI : Nat := 0x1000

/-- The `init_flags` match in `Queue::new` (linux/queue.rs lines 39-42). -/
def initFlags : Layer → Nat
  | .L2 => IFF_TAP
  | .L3 => IFF_TUN

/-- The `ifreq` handshake structure: an interface name field and a flags
field.  `ifreq::new(name)` zero-initializes and copies the name in. -/
structure Ifreq where
  name : String
  flags : Nat
deriving DecidableEq, Repr

/-- Models `ifreq::new` followed by `req.ifr_ifru.ifru_flags = init_flags`
(linux/queue.rs lines 44-45): the request handed to the TUNSETIFF ioctl. -/
def tunsetiffReq (name : String) (layer : Layer) : Ifreq :=
  { name := name, flags := initFlags layer }

/-- The Linux Queue value: it wraps only the reactor-registered device
handle (`tun_device: AsyncFd<fs::File>`, modelled by its raw fd number).
There is no name field. -/
structure LinuxQueue where
  fd : Nat
deriving DecidableEq, Repr

/-- Models `Queue::new` (linux/queue.rs lines 32-52).  `fd` is the outcome of
opening `/dev/net/tun` non-blocking (`none` = open failed, propagated by
`?`); `ioctlOk` is the TUNSETIFF outcome (`false` makes the `.unwrap()`
panic, modelled as the outer `none`); `kernelAssigned` is the interface
name the kernel writes back into the `ifreq` passed to the ioctl.  After
the handshake the code drops `req` and returns only the wrapped handle. -/
def queueNew (name : String) (layer : Layer) (fd : Option Nat)
    (ioctlOk : Bool) (kernelAssigned : String) :
    Option (Except Unit LinuxQueue) :=
  match fd with
  | none => some (.error ())
  | some f =>
    if ioctlOk then
      let req := tunsetiffReq name layer
      let reqAfter := { req with name := kernelAssigned }
      let _ := reqAfter
      some (.ok { fd := f })
    else
      none

/-- One interaction of the `poll_read` loop (linux/queue.rs lines 72-89)
with the reactor and the device: the guarded `try_io` read attempt. -/
inductive TryIoRes where
  | wouldBlock : TryIoRes
  | okRead : List Nat → TryIoRes
  | errRead : Nat → TryIoRes
deriving DecidableEq, Repr

/-- What `poll_read_ready_mut` reports on one loop iteration: not ready
(the overall poll suspends via `ready!`), ready with an io attempt, or an
error from the readiness poll itself (propagated by `?`). -/
inductive ReadyEvent where
  | notReady : ReadyEvent
  | readyFail : Nat → ReadyEvent
  | ready : TryIoRes → ReadyEvent
deriving DecidableEq, Repr

/-- Models `AsyncRead::poll_read` for the Linux Queue (linux/queue.rs lines
72-89), driven by the finite list of reactor/device events it consumes.
A scratch vector `b` of length `buf.capacity()` is allocated before the
loop; the device hands `incoming` bytes of which `read` returns at most the
scratch length; on success `put_slice` appends them all to the `ReadBuf`.
`try_io` reporting would-block (stale readiness) continues the loop.
`none` means the event list ended with the loop still running. -/
def pollRead (evs : List ReadyEvent) (buf : RBuf) :
    Option (Outcome Unit × RBuf) :=
  match evs with
  | [] => none
  | .notReady :: _ => some (.pending, buf)
  | .readyFail e :: _ => some (.ready (.error (.os e)), buf)
  | .ready .wouldBlock :: rest => pollRead rest buf
  | .ready (.errRead e) :: _ => some (.ready (.error (.os e)), buf)
  | .ready (.okRead incoming) :: _ =>
    let n := min incoming.length buf.capacity
    match buf.putSlice (incoming.take n) with
    | some buf' => some (.ready (.ok ()), buf')
    | none => some (.panicked, buf)

end Linux

/-! ### Theorems -/

namespace Wintun

/-- Splitting an execution at a list split point. -/
theorem dropTrace_append_split {s s'' : DropState} {as bs : List DropLabel}
    (h : DropTrace s (as ++ bs) s'') :
    ∃ mid, DropTrace s as mid ∧ DropTrace mid bs s'' := by
  induction as generalizing s with
  | nil => exact ⟨s, .nil, h⟩
  | cons a tl ih =>
    cases h with
    | cons hstep htr =>
      obtain ⟨mid, h1, h2⟩ := ih htr
      exact ⟨mid, .cons hstep h1, h2⟩

/-- Each step preserves the shutdown invariant. -/
theorem dropStep_inv {s s' : DropState} {l : DropLabel}
    (h : DropStep s l s') (hinv : DropInv s) : DropInv s' := by
  cases h with
  | set hpc => exact ⟨fun _ => rfl, fun h2 => by simp at h2⟩
  | drv _ => exact hinv
  | exit _ _ => exact ⟨hinv.1, fun _ => rfl⟩
  | join hpc hdead => exact ⟨fun _ => hinv.1 (by omega), fun _ => hdead⟩
  | fin hpc => exact ⟨fun _ => hinv.1 (by omega), fun _ => hinv.2 (by omega)⟩

/-- Executions preserve the shutdown invariant. -/
theorem dropTrace_inv {s s' : DropState} {ls : List DropLabel}
    (h : DropTrace s ls s') (hinv : DropInv s) : DropInv s' := by
  induction h with
  | nil => exact hinv
  | cons hstep _ ih => exact ih (dropStep_inv hstep hinv)

/-- Once the receive thread has exited it performs no further driver call
in any continuation of the execution. -/
theorem dropTrace_dead_no_driver_call {s s' : DropState} {ls : List DropLabel}
    (h : DropTrace s ls s') (hdead : s.threadAlive = false) :
    DropLabel.threadDriverCall ∉ ls := by
  induction h with
  | nil => simp
  | cons hstep _ ih =>
    cases hstep with
    | set hpc => simpa using ih hdead
    | drv halive => rw [halive] at hdead; cases hdead
    | exit halive _ => rw [halive] at hdead; cases hdead
    | join hpc hdead2 => simpa using ih hdead
    | fin hpc => simpa using ih hdead

/-- Any execution taking the destructor from its signal step to the state
just before `WintunEndSession` contains `setEvent` followed (later) by
`joinReturn`. -/
theorem dropTrace_pc1_join {s s' : DropState} {ls : List DropLabel}
    (h : DropTrace s ls s') (hpc : s.dropperPC = 1) (hpc2 : s'.dropperPC = 2) :
    ∃ p2 p3, ls = p2 ++ DropLabel.joinReturn :: p3 := by
  induction h with
  | nil => omega
  | cons hstep htail ih =>
    rename_i s0 s1 s2 l ls0
    cases hstep with
    | set hpc0 => omega
    | drv _ =>
      obtain ⟨p2, p3, hp⟩ := ih hpc hpc2
      exact ⟨.threadDriverCall :: p2, p3, by simp [hp]⟩
    | exit _ _ =>
      obtain ⟨p2, p3, hp⟩ := ih hpc hpc2
      exact ⟨.threadExit :: p2, p3, by simp [hp]⟩
    | join _ _ => exact ⟨[], ls0, rfl⟩
    | fin hpc0 => omega

/-- Any execution taking the destructor from its initial state to the state
just before `WintunEndSession` contains `setEvent` and then `joinReturn`,
in that order. -/
theorem dropTrace_pc0_order {s s' : DropState} {ls : List DropLabel}
    (h : DropTrace s ls s') (hpc : s.dropperPC = 0) (hpc2 : s'.dropperPC = 2) :
    ∃ p1 p2 p3, ls = p1 ++ DropLabel.setEvent :: p2 ++ DropLabel.joinReturn :: p3 := by
  induction h with
  | nil => omega
  | cons hstep htail ih =>
    rename_i s0 s1 s2 l ls0
    cases hstep with
    | set hpc0 =>
      obtain ⟨p2, p3, hp⟩ := dropTrace_pc1_join htail rfl hpc2
      exact ⟨[], p2, p3, by simp [hp]⟩
    | drv _ =>
      obtain ⟨p1, p2, p3, hp⟩ := ih hpc hpc2
      exact ⟨.threadDriverCall :: p1, p2, p3, by simp [hp]⟩
    | exit _ _ =>
      obtain ⟨p1, p2, p3, hp⟩ := ih hpc hpc2
      exact ⟨.threadExit :: p1, p2, p3, by simp [hp]⟩
    | join hpc0 _ => omega
    | fin hpc0 => omega

/-- Claim C1 (code bug): a second `poll_write` on the wintun Queue while the
first write's result has not been stored (status slot empty) does not wait:
it dispatches a second `spawn_blocking` `do_write` task, so two concurrent
driver send calls are in flight (`tasks` grows from one to two entries),
contradicting the specified write serialization. -/
theorem poll_write_double_dispatch :
    (pollWrite ⟨none, []⟩ [1]).1 = .pending ∧
    (pollWrite ⟨none, []⟩ [1]).2 = ⟨none, [[1]]⟩ ∧
    (pollWrite ⟨none, [[1]]⟩ [2]).1 = .pending ∧
    (pollWrite ⟨none, [[1]]⟩ [2]).2 = ⟨none, [[2], [1]]⟩ :=
  ⟨rfl, rfl, rfl, rfl⟩

/-- Claim C2 (code bug): the wintun synchronous `read` panics when the frame
at the head of the channel is shorter than the caller's buffer — the code
calls `buf.copy_from_slice(&message[..bytes_to_copy])` with a source of
length `bytes_to_copy < buf.len()`, and `copy_from_slice` panics on length
mismatch.  Concretely, a one-byte frame read into a two-byte buffer panics
(`none`) instead of returning `Ok(1)`. -/
theorem read_short_frame_panics :
    queueRead ⟨[[7]], false⟩ [0, 0] = none := rfl

/-- Claim C3: truncation policy of the wintun synchronous `read`.  For a
frame of size K at the head of the channel and a caller buffer of size
M < K, the read returns exactly M bytes, the buffer holds the first M bytes
of the frame, and the resulting channel state is exactly the tail of the
queue — the discarded K−M bytes are dropped and cannot reappear in any
subsequent read. -/
theorem read_truncation (frame : List Nat) (rest : List (List Nat)) (d : Bool)
    (buf : List Nat) (h : buf.length < frame.length) :
    queueRead ⟨frame :: rest, d⟩ buf =
      some (.ok buf.length, frame.take buf.length, ⟨rest, d⟩) := by
  have hmin : min buf.length frame.length = buf.length :=
    Nat.min_eq_left (Nat.le_of_lt h)
  have hlen : (frame.take buf.length).length = buf.length := by
    rw [List.length_take]; exact hmin
  simp [queueRead, tryRecv, copyFromSlice, hmin, hlen]

/-- Witness for C3: a three-byte frame read through a one-byte buffer
returns one byte, the frame's first byte, and drops the remainder. -/
theorem read_truncation_witness :
    queueRead ⟨[[1, 2, 3]], false⟩ [0] = some (.ok 1, [1], ⟨[], false⟩) :=
  read_truncation [1, 2, 3] [] false [0] (by decide)

/-- Claim C4: with the frame channel disconnected (receive thread gone and
no frame buffered), the wintun synchronous `read` returns `Ok(0)` — not an
error — and `poll_read` completes ready with success and zero bytes
appended to the caller's `ReadBuf`. -/
theorem read_disconnected_eof (buf : List Nat) (rb : RBuf) :
    queueRead ⟨[], true⟩ buf = some (.ok 0, buf, ⟨[], true⟩) ∧
    pollRead ⟨[], true⟩ rb = (.ready (.ok ()), rb, ⟨[], true⟩, false) := by
  constructor
  · rfl
  · simp [pollRead, queueRead, tryRecv, RBuf.putSlice]

/-- Claim C5: `do_write` error translation.  Successful driver allocation
writes the full payload length; allocation failure with
`ERROR_BUFFER_OVERFLOW` surfaces as a would-block error; any other failure
code is passed through untranslated. -/
theorem write_error_translation (buf : List Nat) (code : Nat) :
    doWrite buf .success = .ok buf.length ∧
    doWrite buf (.fail ERROR_BUFFER_OVERFLOW) = .error .wouldBlock ∧
    (code ≠ ERROR_BUFFER_OVERFLOW → doWrite buf (.fail code) = .error (.os code)) := by
  refine ⟨rfl, by simp [doWrite], fun hc => by simp [doWrite, hc]⟩

/-- Witness for C5 at concrete payloads and codes. -/
theorem write_error_translation_witness :
    doWrite [9, 9] .success = .ok 2 ∧
    doWrite [9] (.fail 111) = .error .wouldBlock ∧
    doWrite [9] (.fail 5) = .error (.os 5) :=
  ⟨(write_error_translation [9, 9] 5).1,
   (write_error_translation [9] 5).2.1,
   (write_error_translation [9] 5).2.2 (by decide)⟩

/-- Claim C8: shutdown ordering of the wintun Queue destructor.  In every
execution of the destructor interleaved with the receive thread that ends
the session, the labels before `endSession` contain `setEvent` and then
`joinReturn`, in that order, and no receive-thread driver call occurs after
`endSession` — the session is never torn down while the thread may still be
inside a driver call. -/
theorem drop_ordering (pre post : List DropLabel) (final : DropState)
    (h : DropTrace dropInit (pre ++ DropLabel.endSession :: post) final) :
    (∃ p1 p2 p3, pre = p1 ++ DropLabel.setEvent :: p2 ++ DropLabel.joinReturn :: p3) ∧
    DropLabel.threadDriverCall ∉ post := by
  obtain ⟨mid, hpre, hrest⟩ := dropTrace_append_split h
  cases hrest with
  | cons hstep htail =>
    have hinit : DropInv dropInit :=
      ⟨fun h1 => by simp [dropInit] at h1, fun h2 => by simp [dropInit] at h2⟩
    have hinv := dropTrace_inv hpre hinit
    cases hstep with
    | fin hpc =>
      have hdead : mid.threadAlive = false := hinv.2 (by omega)
      refine ⟨dropTrace_pc0_order hpre rfl hpc, ?_⟩
      exact dropTrace_dead_no_driver_call htail (by simpa using hdead)

/-- Witness for C8: the canonical shutdown execution signal → thread exit →
join → end-session satisfies the ordering conclusion. -/
theorem drop_ordering_witness :
    (∃ p1 p2 p3,
      [DropLabel.setEvent, DropLabel.threadExit, DropLabel.joinReturn] =
        p1 ++ DropLabel.setEvent :: p2 ++ DropLabel.joinReturn :: p3) ∧
    DropLabel.threadDriverCall ∉ ([] : List DropLabel) :=
  drop_ordering [DropLabel.setEvent, DropLabel.threadExit, DropLabel.joinReturn] []
    ⟨3, true, false⟩
    (.cons (.set rfl) (.cons (.exit rfl rfl)
      (.cons (.join rfl rfl) (.cons (.fin rfl) .nil))))

end Wintun

namespace Linux

/-- Claim C6 counterexample: the TUNSETIFF flags for an L3 queue are exactly
`IFF_TUN` and do not contain `IFF_NO_PI`, so the handshake does not request
suppression of the per-packet metadata header, contrary to the claim. -/
theorem handshake_no_pi_counterexample :
    ¬ ((tunsetiffReq "tun0" .L3).flags &&& IFF_NO_PI ≠ 0) := by decide

/-- Claim C6 as amended: the handshake flags select Ethernet-framed
(`IFF_TAP`) or raw-IP-framed (`IFF_TUN`) operation according to the layer
argument, but for either layer they do not include `IFF_NO_PI`: suppression
of the packet-info header is not requested. -/
theorem handshake_flags (name : String) :
    (tunsetiffReq name .L2).flags = IFF_TAP ∧
    (tunsetiffReq name .L3).flags = IFF_TUN ∧
    ∀ layer, (tunsetiffReq name layer).flags &&& IFF_NO_PI = 0 := by
  refine ⟨rfl, rfl, ?_⟩
  intro layer
  have h2 : (tunsetiffReq name layer).flags = initFlags layer := rfl
  rw [h2]
  cases layer <;> decide

/-- Claim C7 counterexample: `Queue::new` produces the same value whatever
interface name the kernel writes back into the `ifreq` — the assigned name
is not read back, so it cannot be surfaced to the caller. -/
theorem queue_new_name_not_surfaced :
    queueNew "tun" .L3 (some 7) true "tun0" = queueNew "tun" .L3 (some 7) true "tun1" ∧
    queueNew "tun" .L3 (some 7) true "tun0" = some (.ok ⟨7⟩) :=
  ⟨rfl, rfl⟩

/-- Claim C7 as amended: on success `Queue::new` returns only the wrapped
device handle; its result is independent of the name the kernel assigns, so
the final interface name is discarded rather than surfaced. -/
theorem queue_new_returns_handle_only (name : String) (layer : Layer) (f : Nat)
    (a b : String) :
    queueNew name layer (some f) true a = some (.ok ⟨f⟩) ∧
    queueNew name layer (some f) true a = queueNew name layer (some f) true b := by
  exact ⟨rfl, rfl⟩

/-- One loop iteration of the Linux `poll_read` on a stale readiness event
(the `Err(_) => continue` arm of `try_io`). -/
theorem pollRead_stale_cons (evs : List ReadyEvent) (buf : RBuf) :
    pollRead (.ready .wouldBlock :: evs) buf = pollRead evs buf := rfl

/-- Stale readiness wakeups are consumed inside the loop without returning
control to the caller. -/
theorem pollRead_stale_skip (k : Nat) (evs : List ReadyEvent) (buf : RBuf) :
    pollRead (List.replicate k (.ready .wouldBlock) ++ evs) buf = pollRead evs buf := by
  induction k with
  | zero => rfl
  | succ n ih => rw [List.replicate_succ, List.cons_append, pollRead_stale_cons, ih]

/-- Claim C9: the Linux `poll_read` loop.  Any number of stale would-block
wakeups is retried internally without returning; after them, a successful
read completes ready with exactly the received bytes appended to the
caller's buffer; a read error completes ready with that error untranslated;
and a not-ready reactor report suspends the poll. -/
theorem poll_read_loop (k : Nat) (evs : List ReadyEvent) (buf : RBuf)
    (incoming : List Nat) (e : Nat)
    (hfill : buf.filled = []) (hinc : incoming.length ≤ buf.capacity) :
    pollRead (List.replicate k (.ready .wouldBlock) ++ evs) buf = pollRead evs buf ∧
    pollRead (List.replicate k (.ready .wouldBlock) ++ [.ready (.okRead incoming)]) buf =
      some (.ready (.ok ()), ⟨buf.capacity, incoming⟩) ∧
    pollRead (List.replicate k (.ready .wouldBlock) ++ [.ready (.errRead e)]) buf =
      some (.ready (.error (.os e)), buf) ∧
    pollRead (List.replicate k (.ready .wouldBlock) ++ .notReady :: evs) buf =
      some (.pending, buf) := by
  have hn : min incoming.length buf.capacity = incoming.length := Nat.min_eq_left hinc
  have htake : incoming.take (min incoming.length buf.capacity) = incoming := by
    rw [hn, List.take_length]
  refine ⟨pollRead_stale_skip k evs buf, ?_, ?_, ?_⟩
  · rw [pollRead_stale_skip]
    simp [pollRead, RBuf.putSlice, RBuf.remaining, hfill, hinc, htake]
  · rw [pollRead_stale_skip]; rfl
  · rw [pollRead_stale_skip]; rfl

/-- Witness for C9: two stale wakeups followed by a successful two-byte
read into a fresh four-byte buffer complete with those two bytes. -/
theorem poll_read_loop_witness :
    pollRead (List.replicate 2 (ReadyEvent.ready .wouldBlock) ++
        [ReadyEvent.ready (.okRead [3, 4])]) ⟨4, []⟩ =
      some (.ready (.ok ()), ⟨4, [3, 4]⟩) :=
  (poll_read_loop 2 [] ⟨4, []⟩ [3, 4] 9 rfl (by decide)).2.1

/-- Claim C10: the Linux `poll_read` sizes its scratch vector by the
`ReadBuf`'s total capacity and appends everything read with `put_slice`, so
a successful read completes without panicking exactly when the bytes read
fit the remaining unfilled space; a read longer than the remaining space of
a partially pre-filled buffer panics instead of truncating or erroring. -/
theorem poll_read_overfill_panics (buf : RBuf) (incoming : List Nat)
    (hinc : incoming.length ≤ buf.capacity) :
    (incoming.length ≤ buf.remaining →
      pollRead [.ready (.okRead incoming)] buf =
        some (.ready (.ok ()), ⟨buf.capacity, buf.filled ++ incoming⟩)) ∧
    (buf.remaining < incoming.length →
      pollRead [.ready (.okRead incoming)] buf = some (.panicked, buf)) := by
  have hn : min incoming.length buf.capacity = incoming.length := Nat.min_eq_left hinc
  have htake : incoming.take (min incoming.length buf.capacity) = incoming := by
    rw [hn, List.take_length]
  constructor
  · intro hfit
    simp [pollRead, RBuf.putSlice, htake, hfit]
  · intro hover
    simp [pollRead, RBuf.putSlice, htake, Nat.not_le.mpr hover]

/-- Witness for C10: a two-byte read fits a fresh four-byte buffer, and the
same read into the same buffer pre-filled with three bytes panics. -/
theorem poll_read_overfill_panics_witness :
    pollRead [ReadyEvent.ready (.okRead [1, 2])] ⟨4, []⟩ =
      some (.ready (.ok ()), ⟨4, [1, 2]⟩) ∧
    pollRead [ReadyEvent.ready (.okRead [1, 2])] ⟨4, [8, 8, 8]⟩ =
      some (.panicked, ⟨4, [8, 8, 8]⟩) :=
  ⟨(poll_read_overfill_panics ⟨4, []⟩ [1, 2] (by decide)).1 (by decide),
   (poll_read_overfill_panics ⟨4, [8, 8, 8]⟩ [1, 2] (by decide)).2 (by decide)⟩

end Linux

end Tunio
